import Mathlib

/-!
Verification development for the arbitrage terminal's Order Lifecycle
Correlation & Execution Engine.

Shallow embedding conventions:
* Python `float` prices and numeric ratios are modelled as exact rationals
  (`ℚ`); Python `int` quantities and identifiers as `Int`.
* Nullable columns / optional dict entries are `Option`.
* Python truthiness (`x or d`, `if x ... else d`) is embedded by explicit
  helpers (`pyOrInt`, `pyOrQ`, ...) that treat `None` and `0` (resp. the
  empty string) as falsy, exactly like the source.
* The engine's id-correlation dictionaries are embedded as association
  lists with first-match lookup; insertion prepends, which gives the
  overwrite semantics of a Python `dict`.  The source registers each id
  under both its `int` and `str` form so that either spelling resolves;
  since both forms are registered and looked up together, the embedding
  collapses the pair to the single integer key.
* The engine mutates all shared state on one cooperative execution
  context; `_schedule(update())` is therefore embedded as the synchronous
  application of the scheduled update to the state.
* Logging is abstracted into a small `LogAct` trace where a claim talks
  about it; `print` debugging is ignored.
-/

namespace ArbTerm

/-- `db.models.OrderStatus` (StrEnum). -/
inductive OrderStatus where
  | NEW
  | ACTIVE
  | PARTIAL
  | FILLED
  | CANCELLED
  | REJECTED
deriving DecidableEq, Repr

/-- `db.models.Side` (StrEnum): `LONG`/`SHORT`. -/
inductive Side where
  | LONG
  | SHORT
deriving DecidableEq, Repr

/-- Python `x or d` on an optional int (`None` and `0` are falsy). -/
def pyOrInt (x : Option Int) (d : Int) : Int :=
  match x with
  | none => d
  | some v => if v = 0 then d else v

/-- Python `x or d` on an optional rational (`None` and `0.0` are falsy). -/
def pyOrQ (x : Option ℚ) (d : ℚ) : ℚ :=
  match x with
  | none => d
  | some v => if v = 0 then d else v

/-- Python `float(x) if x else 1.0` on an optional numeric column
(`None` and `0` give the default `1.0`).  Used for the pair ratios. -/
def pyRatioOr1 (x : Option ℚ) : ℚ :=
  match x with
  | none => 1
  | some v => if v = 0 then 1 else v

/-- Association-list lookup with first-match semantics (Python `dict`
lookup after the prepend-style insert below). -/
def lookup {α : Type} (m : List (Int × α)) (k : Int) : Option α :=
  (m.find? (fun p => p.1 = k)).map (·.2)

/-- Association-list insert; prepending makes the new binding shadow any
older one, matching `dict` assignment. -/
def insertMap {α : Type} (m : List (Int × α)) (k : Int) (v : α) : List (Int × α) :=
  (k, v) :: m

/-- An ORM `Order` row, restricted to the columns the engine reads and
writes (`db.models.Order` plus the migrated `exec_price`/`pair_id`
columns). -/
structure OrderRec where
  instrumentId : Int
  side : Side
  price : ℚ
  qty : Int
  filled : Option Int
  leavesQty : Option Int
  execPrice : Option ℚ
  status : OrderStatus
  quikNum : Option Int
  strategyId : Option Int
  pairId : Option Int
deriving DecidableEq, Repr

/-- The body of `update()` inside `OrderManager.on_trade_event`
(`src/core/order_manager.py`): add the trade quantity to `filled`,
recompute `leaves_qty`, update the running weighted execution price, and
set the status to `FILLED`/`PARTIAL`. -/
def apply_trade (o : OrderRec) (tradeQty : Int) (tradePrice : ℚ) : OrderRec :=
  let prevFilled : Int := pyOrInt o.filled 0
  let filledNew : Int := prevFilled + tradeQty
  let leavesNew : Int := max (o.qty - filledNew) 0
  let execNew : Option ℚ :=
    if 0 < tradeQty ∧ 0 < tradePrice then
      if prevFilled = 0 then
        some tradePrice
      else
        let prevExec : ℚ := pyOrQ o.execPrice 0
        some ((prevExec * prevFilled + tradePrice * tradeQty) / filledNew)
    else
      o.execPrice
  let statusNew : OrderStatus :=
    if o.qty ≤ filledNew then OrderStatus.FILLED else OrderStatus.PARTIAL
  { o with
      filled := some filledNew
      leavesQty := some leavesNew
      execPrice := execNew
      status := statusNew }

/-- `OrderManager._update_order_status` (`src/core/order_manager.py`):
status is updated only when given; when `filled` is given, `leaves_qty`
is recomputed as `max(qty - filled, 0)`. -/
def update_order_status_rec (o : OrderRec) (status : Option OrderStatus)
    (filled : Option Int) : OrderRec :=
  let o1 := match status with
    | some s => { o with status := s }
    | none => o
  match filled with
  | some f => { o1 with filled := some f, leavesQty := some (max (o1.qty - f) 0) }
  | none => o1

/-- The body of `update()` inside `OrderManager.on_trans_reply_event`:
an error code that is not `0`/`None`/`"0"`/`""`, or a `REJECTED` status,
rejects the order; a `CANCELLED` status cancels it; anything else leaves
it unchanged. -/
def apply_trans_reply_rec (o : OrderRec) (errTruthy : Bool)
    (statusNorm : Option OrderStatus) : OrderRec :=
  if errTruthy ∨ statusNorm = some OrderStatus.REJECTED then
    { o with status := OrderStatus.REJECTED }
  else if statusNorm = some OrderStatus.CANCELLED then
    { o with status := OrderStatus.CANCELLED }
  else
    o

/-- One normalized event, as seen by a single order's bookkeeping. -/
inductive OEvent where
  | trade (qty : Int) (price : ℚ)
  | statusUpd (status : Option OrderStatus) (filled : Option Int)
  | reply (errTruthy : Bool) (statusNorm : Option OrderStatus)
deriving DecidableEq, Repr

/-- Dispatch one ingested event to the corresponding per-order update of
`src/core/order_manager.py`. -/
def apply_oevent (o : OrderRec) : OEvent → OrderRec
  | OEvent.trade q p => apply_trade o q p
  | OEvent.statusUpd s f => update_order_status_rec o s f
  | OEvent.reply e s => apply_trans_reply_rec o e s

/-- Fold a whole event sequence over one order. -/
def run_oevents (o : OrderRec) (evs : List OEvent) : OrderRec :=
  evs.foldl apply_oevent o

/-- Fold a sequence of trade fills `(qty, price)` over one order. -/
def run_trades (o : OrderRec) (fills : List (Int × ℚ)) : OrderRec :=
  fills.foldl (fun a f => apply_trade a f.1 f.2) o

/-- A freshly created order: status `NEW`, nothing filled, no execution
price yet (`db.models.Order` defaults). -/
def freshOrder (instrumentId : Int) (side : Side) (price : ℚ) (qty : Int) : OrderRec :=
  { instrumentId := instrumentId
    side := side
    price := price
    qty := qty
    filled := some 0
    leavesQty := some qty
    execPrice := none
    status := OrderStatus.NEW
    quikNum := none
    strategyId := none
    pairId := none }

/-- Modelled from the spec: the per-order fill recurrence of §8 /
`CLAIMS C1` — `filled_n = filled_{n-1} + fillQty_n` and
`execPrice_n = fillPrice_1` after the first fill, then
`(execPrice_{n-1}*filled_{n-1} + fillPrice_n*fillQty_n)/filled_n`.
The accumulator carries `(filled, execPrice)`. -/
def specFillStep (acc : Int × ℚ) (f : Int × ℚ) : Int × ℚ :=
  (acc.1 + f.1, if acc.1 = 0 then f.2 else (acc.2 * acc.1 + f.2 * f.1) / (acc.1 + f.1))

/-- Modelled from the spec: run the C1 recurrence over a fill sequence,
starting from an unfilled order. -/
def specFillRun (fills : List (Int × ℚ)) : Int × ℚ :=
  fills.foldl specFillStep (0, 0)

/-- The leaves-quantity bookkeeping invariant actually maintained by the
code: `leaves_qty = max(qty - filled, 0)`. -/
def leavesOk (o : OrderRec) : Prop :=
  o.leavesQty = some (max (o.qty - pyOrInt o.filled 0) 0)

instance (o : OrderRec) : Decidable (leavesOk o) := by
  unfold leavesOk; infer_instance

/-- An `assets_table` row, restricted to the columns the pair rescan
reads (`sec_code`, `code`). -/
structure AssetRec where
  secCode : Option String
  code : Option String
deriving DecidableEq, Repr

/-- A `pairs_table` row, restricted to the columns
`OrderManager._update_pair_exec_price` reads and writes. -/
structure PairRec where
  asset1 : Option String
  asset2 : Option String
  qtyRatio1 : Option ℚ
  qtyRatio2 : Option ℚ
  priceRatio1 : Option ℚ
  priceRatio2 : Option ℚ
  execPrice : Option ℚ
  execQty : Option Int
deriving DecidableEq, Repr

/-- An `instruments` row: `(board, ticker)`. -/
structure InstrRec where
  board : String
  ticker : String
deriving DecidableEq, Repr

/-- String-keyed association lookup (for the ticker → alias dict). -/
def lookupS {α : Type} (m : List (String × α)) (k : String) : Option α :=
  (m.find? (fun p => p.1 = k)).map (·.2)

/-- The `sec_code → code` alias dictionary built by
`_update_pair_exec_price` from `assets_table`: rows whose `sec_code` and
`code` are both truthy (non-`None`, non-empty) contribute an entry;
later rows overwrite earlier ones. -/
def buildAliasMap (assets : List AssetRec) : List (String × String) :=
  assets.foldl
    (fun m a =>
      match a.secCode, a.code with
      | some sc, some c => if sc ≠ "" ∧ c ≠ "" then (sc, c) :: m else m
      | _, _ => m)
    []

/-- The per-pair accumulator of the rescan loop:
`(sum_1, sum_2, exec_qty)`. -/
structure PairAcc where
  sum1 : ℚ
  sum2 : ℚ
  execQty : Int
deriving DecidableEq, Repr

/-- One iteration of the rescan loop in `_update_pair_exec_price`: skip
orders with falsy `exec_price` or `filled`; resolve the order's
instrument ticker to an alias; accumulate the normalized contribution
`(exec_price * filled) / qty_ratio` on the matching leg (leg 1 also
accumulates `exec_qty`); orders resolving to neither leg are excluded. -/
def pair_scan_step (pair : PairRec) (aliasMap : List (String × String))
    (acc : PairAcc) (o : OrderRec × Option String) : PairAcc :=
  let ord := o.1
  if pyOrQ ord.execPrice 0 = 0 ∨ pyOrInt ord.filled 0 = 0 then acc
  else
    let p : ℚ := pyOrQ ord.execPrice 0
    let f : Int := pyOrInt ord.filled 0
    let als : Option String := o.2.bind (lookupS aliasMap)
    if als = pair.asset1 then
      { acc with
          sum1 := acc.sum1 + p * f / pyRatioOr1 pair.qtyRatio1
          execQty := acc.execQty + f }
    else if als = pair.asset2 then
      { acc with sum2 := acc.sum2 + p * f / pyRatioOr1 pair.qtyRatio2 }
    else
      acc

/-- The full rescan of `_update_pair_exec_price` over the queried orders
(each paired with its instrument's ticker): fold the loop, then
`P&L = sum_1 * price_ratio_1 - sum_2 * price_ratio_2`.  Returns the
updated pair row (`exec_qty`, `exec_price`). -/
def pair_rescan (pair : PairRec) (aliasMap : List (String × String))
    (orders : List (OrderRec × Option String)) : PairRec :=
  let acc := orders.foldl (pair_scan_step pair aliasMap) ⟨0, 0, 0⟩
  let pnl : ℚ := acc.sum1 * pyRatioOr1 pair.priceRatio1
    - acc.sum2 * pyRatioOr1 pair.priceRatio2
  { pair with execQty := some acc.execQty, execPrice := some pnl }

/-- The SQL prefilter of `_update_pair_exec_price`: all orders of the
pair with `filled > 0` and a non-`NULL` `exec_price`, each joined with
its instrument's ticker. -/
def pair_orders_query (pairId : Int) (orders : List (Int × OrderRec))
    (instruments : List (Int × InstrRec)) : List (OrderRec × Option String) :=
  (orders.filter
      (fun p =>
        p.2.pairId = some pairId ∧ 0 < pyOrInt p.2.filled 0 ∧ p.2.execPrice ≠ none)).map
    (fun p => (p.2, (lookup instruments p.2.instrumentId).map (·.ticker)))

/-- Modelled from the spec side of C3, for comparison with
`pair_rescan`: per-leg contribution sums written with `filter`/`map`/
`sum`, realized P&L `Σ(leg1)*priceRatio1 − Σ(leg2)*priceRatio2`, and
executed quantity the total `filled` attributed to leg 1. -/
def specOrderAlias (aliasMap : List (String × String))
    (o : OrderRec × Option String) : Option String :=
  o.2.bind (lookupS aliasMap)

/-- Whether the rescan loop processes the order at all (truthy
`exec_price` and `filled`). -/
def specProcessed (o : OrderRec × Option String) : Bool :=
  ¬ (pyOrQ o.1.execPrice 0 = 0 ∨ pyOrInt o.1.filled 0 = 0)

/-- Modelled from the spec side of C3: one order's normalized
contribution `(fillPrice * filledQty) / legQtyRatio`. -/
def specContrib (qtyRatio : Option ℚ) (o : OrderRec × Option String) : ℚ :=
  pyOrQ o.1.execPrice 0 * pyOrInt o.1.filled 0 / pyRatioOr1 qtyRatio

/-- Modelled from the spec side of C3: membership of a processed order
in leg 1 (its alias resolves to the pair's first asset). -/
def isLeg1 (pair : PairRec) (aliasMap : List (String × String))
    (o : OrderRec × Option String) : Bool :=
  specProcessed o && decide (specOrderAlias aliasMap o = pair.asset1)

/-- Modelled from the spec side of C3: membership of a processed order
in leg 2. -/
def isLeg2 (pair : PairRec) (aliasMap : List (String × String))
    (o : OrderRec × Option String) : Bool :=
  specProcessed o && decide (specOrderAlias aliasMap o = pair.asset2)

/-- Modelled from the spec side of C3: the realized P&L and executed
quantity of a two-leg pair, as filter/sum expressions. -/
def specPairPnl (pair : PairRec) (aliasMap : List (String × String))
    (orders : List (OrderRec × Option String)) : ℚ × Int :=
  let leg1 := orders.filter (isLeg1 pair aliasMap)
  let leg2 := orders.filter (isLeg2 pair aliasMap)
  ((leg1.map (specContrib pair.qtyRatio1)).sum * pyRatioOr1 pair.priceRatio1
      - (leg2.map (specContrib pair.qtyRatio2)).sum * pyRatioOr1 pair.priceRatio2,
    (leg1.map (fun o => pyOrInt o.1.filled 0)).sum)

/-- States (order lists) that agree except possibly on the BUY/SELL
`side` field of each order — the C10 hyperproperty relation. -/
def eqExceptSide (a b : OrderRec × Option String) : Prop :=
  a.2 = b.2 ∧ { a.1 with side := Side.LONG } = { b.1 with side := Side.LONG }

/-- The pair strategy's entry direction
(`PairArbitrageStrategy._enter_position`): `side = -1` shorts the spread
(short leg 1 / long leg 2), `side = 1` is long the spread. -/
inductive SpreadDir where
  | longSpread
  | shortSpread
deriving DecidableEq, Repr

/-- The FLAT-state entry loop of `PairArbitrageStrategy._loop`
(`src/backend/core/strategy.py`): walk the (already sorted) entry
levels; at each level, `spread_bid >= level` enters short-spread,
otherwise `spread_ask <= -level` enters long-spread; the first hit
wins.  Returns the direction and the level that fired. -/
def entry_scan (levels : List ℚ) (spreadBid spreadAsk : ℚ) :
    Option (SpreadDir × ℚ) :=
  match levels with
  | [] => none
  | l :: ls =>
    if l ≤ spreadBid then some (SpreadDir.shortSpread, l)
    else if spreadAsk ≤ -l then some (SpreadDir.longSpread, l)
    else entry_scan ls spreadBid spreadAsk

/-- The complete FLAT-state entry decision: the loop runs over
`sorted(self.cfg.entry_levels)`. -/
def entry_decision (entryLevels : List ℚ) (spreadBid spreadAsk : ℚ) :
    Option (SpreadDir × ℚ) :=
  entry_scan (entryLevels.insertionSort (· ≤ ·)) spreadBid spreadAsk

/-- The `OrderManager` state (`src/core/order_manager.py`): the id
correlation dictionaries and per-order context caches, together with the
database tables the engine reads and writes.  Order keys are modelled as
integer handles like the other venue ids. -/
structure OMState where
  quikToOrm : List (Int × Int)
  ormToQuik : List (Int × Int)
  transToOrm : List (Int × Int)
  ormToOrderKey : List (Int × Int)
  ormToContract : List (Int × (String × String))
  ormToAccount : List (Int × String)
  ormToClient : List (Int × String)
  orders : List (Int × OrderRec)
  pairs : List (Int × PairRec)
  instruments : List (Int × InstrRec)
  assets : List AssetRec
deriving DecidableEq, Repr

/-- `OrderManager._register_trans_mapping` (int/str pair collapsed to
the integer key). -/
def register_trans_mapping (st : OMState) (transId ormId : Int) : OMState :=
  { st with transToOrm := insertMap st.transToOrm transId ormId }

/-- `OrderManager._register_quik_mapping`: binds the venue order id in
both directions. -/
def register_quik_mapping (st : OMState) (quikNum ormId : Int) : OMState :=
  { st with
      quikToOrm := insertMap st.quikToOrm quikNum ormId
      ormToQuik := insertMap st.ormToQuik ormId quikNum }

/-- Store an order row (ORM commit). -/
def dbSetOrder (st : OMState) (ormId : Int) (o : OrderRec) : OMState :=
  { st with orders := insertMap st.orders ormId o }

/-- `OrderManager._update_order_status` lifted to the state: no-op when
the order row does not exist. -/
def update_order_status (st : OMState) (ormId : Int)
    (status : Option OrderStatus) (filled : Option Int) : OMState :=
  match lookup st.orders ormId with
  | none => st
  | some o => dbSetOrder st ormId (update_order_status_rec o status filled)

/-- `OrderManager._update_order_price`: update the requested price (and
quantity, when given) of an order row. -/
def update_order_price (st : OMState) (ormId : Int) (price : ℚ)
    (qty : Option Int) : OMState :=
  match lookup st.orders ormId with
  | none => st
  | some o =>
    let o1 := { o with price := price }
    let o2 := match qty with
      | some q => { o1 with qty := q }
      | none => o1
    dbSetOrder st ormId o2

/-- `OrderManager._update_order_quik_num`: persist the venue order id
(and optionally the strategy id) on the order row. -/
def update_order_quik_num (st : OMState) (ormId qn : Int)
    (strategyId : Option Int) : OMState :=
  match lookup st.orders ormId with
  | none => st
  | some o =>
    let o1 := { o with quikNum := some qn }
    let o2 := match strategyId with
      | some sid => { o1 with strategyId := some sid }
      | none => o1
    dbSetOrder st ormId o2

/-- The assets whose `sec_code` is among the queried orders' (truthy)
tickers — the `Asset.sec_code.in_(tickers)` prefilter of
`_update_pair_exec_price`. -/
def relevantAssets (orders : List (OrderRec × Option String))
    (assets : List AssetRec) : List AssetRec :=
  assets.filter
    (fun a =>
      match a.secCode with
      | some sc => sc ≠ "" ∧ orders.any (fun o => o.2 = some sc)
      | none => false)

/-- `OrderManager._update_pair_exec_price` lifted to the state: find the
order's pair, query the pair's filled orders, build the alias map and
rescan; commit the recomputed `exec_qty` / `exec_price`.  No-op when the
order has no pair, the pair row is missing, or no orders qualify. -/
def update_pair_exec_price (st : OMState) (ord : OrderRec) : OMState :=
  match ord.pairId with
  | none => st
  | some pid =>
    match lookup st.pairs pid with
    | none => st
    | some pair =>
      let qorders := pair_orders_query pid st.orders st.instruments
      if qorders = [] then st
      else
        let aliasMap := buildAliasMap (relevantAssets qorders st.assets)
        { st with pairs := insertMap st.pairs pid (pair_rescan pair aliasMap qorders) }

/-- A normalized inbound venue event, after the alias-key resolution
(`order_id`/`order_num`, `trans_id`/`TRANS_ID`) and `_to_int`
normalization done at the top of each handler.  `errTruthy` models
`error_code not in (0, None, "0", "")`. -/
structure QEvent where
  orderKey : Option Int
  orderNum : Option Int
  transId : Option Int
  status : Option OrderStatus
  filled : Option Int
  qty : Option Int
  price : Option ℚ
  errTruthy : Bool
  account : Option String
  clientCode : Option String
deriving DecidableEq, Repr

/-- The warnings the ingestion handlers emit on a correlation miss. -/
inductive LogAct where
  | warnOrderEvent (quikNum transId : Option Int)
  | warnTradeEvent (quikNum transId : Option Int)
  | warnTransReply (quikNum transId : Option Int)
deriving DecidableEq, Repr

/-- The local-id resolution of `OrderManager.on_order_event`: by order
key in the venue-id map, then by venue order id, then by transaction
id. -/
def resolve_order_event (st : OMState) (e : QEvent) : Option Int :=
  match e.orderKey.bind (lookup st.quikToOrm) with
  | some orm => some orm
  | none =>
    match e.orderNum.bind (lookup st.quikToOrm) with
    | some orm => some orm
    | none => e.transId.bind (lookup st.transToOrm)

/-- The local-id resolution of `OrderManager.on_trade_event`: by venue
order id, falling back to transaction id. -/
def resolve_trade_event (st : OMState) (e : QEvent) : Option Int :=
  match e.orderNum.bind (lookup st.quikToOrm) with
  | some orm => some orm
  | none => e.transId.bind (lookup st.transToOrm)

/-- The local-id resolution of `OrderManager.on_trans_reply_event`: by
transaction id first, falling back to venue order id. -/
def resolve_trans_reply_event (st : OMState) (e : QEvent) : Option Int :=
  match e.transId.bind (lookup st.transToOrm) with
  | some orm => some orm
  | none => e.orderNum.bind (lookup st.quikToOrm)

/-- The resolved branch of `on_order_event`: cache `ACCOUNT`,
`CLIENT_CODE` and `ORDER_KEY` when newly seen, then apply the scheduled
`_update_order_status`. -/
def order_event_body (st : OMState) (orm : Int) (e : QEvent) : OMState :=
  let st1 := match e.account with
    | some a =>
      if a ≠ "" ∧ lookup st.ormToAccount orm = none then
        { st with ormToAccount := insertMap st.ormToAccount orm a }
      else st
    | none => st
  let st2 := match e.clientCode with
    | some c =>
      if c ≠ "" ∧ lookup st1.ormToClient orm = none then
        { st1 with ormToClient := insertMap st1.ormToClient orm c }
      else st1
    | none => st1
  let st3 := match e.orderKey with
    | some k =>
      if k ≠ 0 ∧ lookup st2.ormToOrderKey orm = none then
        { st2 with ormToOrderKey := insertMap st2.ormToOrderKey orm k }
      else st2
    | none => st2
  update_order_status st3 orm e.status e.filled

/-- `OrderManager.on_order_event`: resolve the local id (learning a new
venue order id when the event was resolved by transaction id), then run
the resolved branch; on a miss, warn and return unchanged. -/
def on_order_event (st : OMState) (e : QEvent) : OMState × List LogAct :=
  match e.orderKey.bind (lookup st.quikToOrm) with
  | some orm => (order_event_body st orm e, [])
  | none =>
    match e.orderNum.bind (lookup st.quikToOrm) with
    | some orm => (order_event_body st orm e, [])
    | none =>
      match e.transId.bind (lookup st.transToOrm) with
      | some orm =>
        let st1 := match e.orderNum with
          | some qn =>
            if lookup st.quikToOrm qn = none then register_quik_mapping st qn orm
            else st
          | none => st
        (order_event_body st1 orm e, [])
      | none => (st, [LogAct.warnOrderEvent e.orderNum e.transId])

/-- The scheduled `update()` of `on_trade_event`: apply the fill to the
order row and recompute the pair execution price.  When the order row is
missing the body raises inside the surrounding `try`/`except` and
nothing is mutated. -/
def trade_update (st : OMState) (orm : Int) (e : QEvent) : OMState :=
  match lookup st.orders orm with
  | none => st
  | some o =>
    let o2 := apply_trade o (pyOrInt e.qty 0) (pyOrQ e.price 0)
    let st2 := dbSetOrder st orm o2
    update_pair_exec_price st2 o2

/-- `OrderManager.on_trade_event`: resolve by venue order id then
transaction id (no learning), then run the scheduled update; on a miss,
warn and return unchanged. -/
def on_trade_event (st : OMState) (e : QEvent) : OMState × List LogAct :=
  match resolve_trade_event st e with
  | some orm => (trade_update st orm e, [])
  | none => (st, [LogAct.warnTradeEvent e.orderNum e.transId])

/-- `OrderManager.on_trans_reply_event`: resolve by transaction id then
venue order id; learn a previously-unseen venue order id; then apply the
scheduled REJECTED/CANCELLED status update. -/
def on_trans_reply_event (st : OMState) (e : QEvent) : OMState × List LogAct :=
  match resolve_trans_reply_event st e with
  | none => (st, [LogAct.warnTransReply e.orderNum e.transId])
  | some orm =>
    let st1 := match e.orderNum with
      | some qn =>
        if lookup st.quikToOrm qn = none then register_quik_mapping st qn orm
        else st
      | none => st
    let st2 := match lookup st1.orders orm with
      | none => st1
      | some o => dbSetOrder st1 orm (apply_trans_reply_rec o e.errTruthy e.status)
    (st2, [])

/-- A transaction payload for `NEW_ORDER` as assembled by the engine
(string numerics kept as numbers, alias keys collapsed). -/
structure OrderData where
  transId : Option String
  classCode : Option String
  secCode : Option String
  account : Option String
  clientCode : Option String
  operation : Option String
  price : Option ℚ
  quantity : Option Int
deriving DecidableEq, Repr

/-- The bridge's immediate acknowledgement envelope
(`result`, `data`, `order_num`/`order_id`). -/
structure QResp where
  result : Option Int
  data : Option Bool
  orderNum : Option Int
deriving DecidableEq, Repr

/-- Observable steps of the outbound operations: id registrations, the
dispatched venue transactions, the settle delay, persistence, and the
logged early returns. -/
inductive TraceAct where
  | genTransId (t : Int)
  | regTrans (t ormId : Int)
  | regQuik (qn ormId : Int)
  | persistQuikNum (ormId qn : Int)
  | dispatchPlace (od : OrderData) (ormId : Int)
  | dispatchCancel (ref : Int) (transId : Option Int)
  | dispatchMove (ref : Int) (price : ℚ) (qty : Int) (transId : Int)
  | settleSleep
  | warnNoIds (ormId : Int)
  | errNotFound (ormId : Int)
  | errNoContract (ormId : Int)
deriving DecidableEq, Repr

/-- `str(order_key or quik_num)`: the reference sent to the venue. -/
def orderRef (okey qn : Option Int) : Int :=
  match okey with
  | some k => k
  | none => qn.getD 0

/-- The transaction id the place operation computes: the payload's
`TRANS_ID` parsed with `int(...)` when present (`None` on a
`ValueError`), else the freshly generated daily-sequence id. -/
def place_trans_id (od : OrderData) (genTransId : Int) : Option Int :=
  match od.transId with
  | none => some genTransId
  | some s => s.toInt?

/-- The context-caching block of `place_limit_order`: stores the
contract, account and client code of the payload (when truthy) for
later cancel/modify requests. -/
def place_cache_context (st : OMState) (od : OrderData) (ormId : Int) : OMState :=
  let st2 := match od.classCode, od.secCode with
    | some c, some s =>
      if c ≠ "" ∧ s ≠ "" then
        { st with ormToContract := insertMap st.ormToContract ormId (c, s) }
      else st
    | _, _ => st
  let st3 := match od.account with
    | some a =>
      if a ≠ "" then { st2 with ormToAccount := insertMap st2.ormToAccount ormId a }
      else st2
    | none => st2
  match od.clientCode with
  | some c =>
    if c ≠ "" then { st3 with ormToClient := insertMap st3.ormToClient ormId c }
    else st3
  | none => st3

/-- `OrderManager.place_limit_order` (`src/core/order_manager.py`):
obtain/generate the transaction id, register its mapping, cache
contract/account/client context, dispatch to the bridge, and register
and persist the venue order id if the immediate reply carries one.
`genTransId` stands for the id `get_next_trans_id` would mint; `resp`
is the bridge's reply.  Returns the new state, the returned venue order
id, and the trace. -/
def place_limit_order (st : OMState) (od : OrderData) (ormId : Int)
    (strategyId : Option Int) (genTransId : Int) (resp : QResp) :
    OMState × Option Int × List TraceAct :=
  let odSent : OrderData := match od.transId with
    | none => { od with transId := some (toString genTransId) }
    | some _ => od
  let tr0 : List TraceAct := match od.transId with
    | none => [TraceAct.genTransId genTransId]
    | some _ => []
  let tid : Option Int := place_trans_id od genTransId
  let st1 := match tid with
    | some t => register_trans_mapping st t ormId
    | none => st
  let tr1 := tr0 ++ (match tid with
    | some t => [TraceAct.regTrans t ormId]
    | none => [])
  let st4 := place_cache_context st1 od ormId
  let tr2 := tr1 ++ [TraceAct.dispatchPlace odSent ormId]
  match resp.orderNum with
  | some qn =>
    let st5 := register_quik_mapping st4 qn ormId
    let st6 := update_order_quik_num st5 ormId qn strategyId
    (st6, some qn, tr2 ++ [TraceAct.regQuik qn ormId, TraceAct.persistQuikNum ormId qn])
  | none => (st4, none, tr2)

/-- `OrderManager.cancel_order`: requires a cached order key or venue
order id; resolves the contract from the instrument, else the contract
cache, else cancels by reference only; mints a fresh transaction id
(`cTransId`), registers it before dispatch, and marks the order
CANCELLED when the bridge's reply confirms (`data` truthy). -/
def cancel_order (st : OMState) (ormId : Int) (cTransId : Int) (cResp : QResp) :
    OMState × List TraceAct :=
  let okey := lookup st.ormToOrderKey ormId
  let qn := lookup st.ormToQuik ormId
  if okey = none ∧ qn = none then (st, [TraceAct.warnNoIds ormId])
  else
    match lookup st.orders ormId with
    | none => (st, [TraceAct.errNotFound ormId])
    | some o =>
      match (match lookup st.instruments o.instrumentId with
        | some instr => some (instr.board, instr.ticker)
        | none => lookup st.ormToContract ormId) with
      | none =>
        (update_order_status st ormId (some OrderStatus.CANCELLED) none,
          [TraceAct.dispatchCancel (orderRef okey qn) none])
      | some _ =>
        let st1 := register_trans_mapping st cTransId ormId
        let st2 :=
          if cResp.data = some true then
            update_order_status st1 ormId (some OrderStatus.CANCELLED) none
          else st1
        (st2, [TraceAct.regTrans cTransId ormId,
          TraceAct.dispatchCancel (orderRef okey qn) (some cTransId)])

/-- The MOVE_ORDERS acceptance check of `modify_order`:
`result in (0, None) and data not in (False, 0, "0", "False")`. -/
def moveOk (r : QResp) : Bool :=
  (r.result = some 0 ∨ r.result = none) ∧ r.data ≠ some false

/-- The cancel + re-place fallback of `modify_order`: one cancel with a
fresh transaction id, the settle sleep, one re-placement carrying the
same local id, then the local price/qty update. -/
def modify_fallback (st : OMState) (trPre : List TraceAct) (ormId : Int)
    (newPrice : ℚ) (qtyForMove oqty : Int) (classCode secCode : String)
    (account clientCode : Option String) (operation : String)
    (cTransId nTransId : Int) (cResp nResp : QResp) : OMState × List TraceAct :=
  let r := cancel_order st ormId cTransId cResp
  let od : OrderData :=
    { transId := some (toString nTransId)
      classCode := some classCode
      secCode := some secCode
      account := account
      clientCode := clientCode
      operation := some operation
      price := some newPrice
      quantity := some (if qtyForMove = 0 then oqty else qtyForMove) }
  let rp := place_limit_order r.1 od ormId none nTransId nResp
  let st4 := update_order_price rp.1 ormId newPrice (some qtyForMove)
  (st4, trPre ++ r.2 ++ [TraceAct.settleSleep] ++ rp.2.2)

/-- `OrderManager.modify_order`: amend-in-place through MOVE_ORDERS on
segments that support it (class code not starting with `TQ`), falling
back to cancel + re-place when the segment is a stock board or the venue
rejects the MOVE_ORDERS transaction.  `mTransId`/`cTransId`/`nTransId`
stand for the randomly minted transaction ids of the move, the cancel
and the re-placement; `mResp`/`cResp`/`nResp` for the bridge replies. -/
def modify_order (st : OMState) (ormId : Int) (newPrice : ℚ)
    (newQty : Option Int) (mTransId cTransId nTransId : Int)
    (mResp cResp nResp : QResp) : OMState × List TraceAct :=
  let okey := lookup st.ormToOrderKey ormId
  let qn := lookup st.ormToQuik ormId
  if okey = none ∧ qn = none then (st, [TraceAct.warnNoIds ormId])
  else
    match lookup st.orders ormId with
    | none => (st, [TraceAct.errNotFound ormId])
    | some o =>
      match (match lookup st.instruments o.instrumentId with
        | some instr => some (instr.board, instr.ticker)
        | none => lookup st.ormToContract ormId) with
      | none => (st, [TraceAct.errNoContract ormId])
      | some cs =>
        let classCode := cs.1
        let secCode := cs.2
        let account := lookup st.ormToAccount ormId
        let clientCode := lookup st.ormToClient ormId
        let st1 := register_trans_mapping st mTransId ormId
        let qtyForMove : Int := match newQty with
          | some q => q
          | none => o.qty
        let operation : String := if o.side = Side.LONG then "B" else "S"
        let useMove := classCode ≠ "" ∧ ¬ (classCode.toUpper.startsWith "TQ")
        if useMove then
          let trM := [TraceAct.regTrans mTransId ormId,
            TraceAct.dispatchMove (orderRef okey qn) newPrice qtyForMove mTransId]
          if moveOk mResp then
            (update_order_price st1 ormId newPrice (some qtyForMove), trM)
          else
            modify_fallback st1 trM ormId newPrice qtyForMove o.qty classCode
              secCode account clientCode operation cTransId nTransId cResp nResp
        else
          modify_fallback st1 [TraceAct.regTrans mTransId ormId] ormId newPrice
            qtyForMove o.qty classCode secCode account clientCode operation
            cTransId nTransId cResp nResp

/-- A push event as it sits in the bridge's bounded event queue. -/
inductive PushEvent where
  | quote (payload : Int)
  | trade (payload : Int)
  | transReply (payload : Int)
deriving DecidableEq, Repr

/-- `asyncio.Queue(maxsize=1000)` in both connectors. -/
def QUEUE_MAXSIZE : Nat := 1000

/-- `queue.put_nowait` with the `except QueueFull: drop` pattern used by
both connectors: when the queue is full the *new* event is dropped and
the queue is unchanged; otherwise it is appended.  The boolean reports
whether the event was enqueued. -/
def put_nowait (q : List PushEvent) (e : PushEvent) : List PushEvent × Bool :=
  if QUEUE_MAXSIZE ≤ q.length then (q, false) else (q ++ [e], true)

/-- `QuikConnector._on_trade` of `src/infra/quik/quik_connector.py`:
the trade push is put on the bounded event queue (dropped when full). -/
def infra_on_trade (q : List PushEvent) (payload : Int) : List PushEvent × Bool :=
  put_nowait q (PushEvent.trade payload)

/-- `QuikConnector._on_trans_reply` of `src/infra/quik/quik_connector.py`:
same lossy queue. -/
def infra_on_trans_reply (q : List PushEvent) (payload : Int) :
    List PushEvent × Bool :=
  put_nowait q (PushEvent.transReply payload)

/-- `QuikConnector._on_quote` of `src/infra/quik/quik_connector.py`. -/
def infra_on_quote (q : List PushEvent) (payload : Int) : List PushEvent × Bool :=
  put_nowait q (PushEvent.quote payload)

/-- `QuikConnector._on_trade` of
`src/quik_connector/core/quik_connector.py`: the payload is handed
straight to `OrderManager.on_trade_event` via the scheduling primitive;
the event queue is not involved. -/
def core_on_trade (st : OMState) (q : List PushEvent) (e : QEvent) :
    OMState × List PushEvent × List LogAct :=
  let r := on_trade_event st e
  (r.1, q, r.2)

/-- `QuikConnector._on_order` of the same bridge: direct hand-off to
`OrderManager.on_order_event`. -/
def core_on_order (st : OMState) (q : List PushEvent) (e : QEvent) :
    OMState × List PushEvent × List LogAct :=
  let r := on_order_event st e
  (r.1, q, r.2)

/-- `QuikConnector._on_trans_reply` of the same bridge: direct hand-off
to `OrderManager.on_trans_reply_event`. -/
def core_on_trans_reply (st : OMState) (q : List PushEvent) (e : QEvent) :
    OMState × List PushEvent × List LogAct :=
  let r := on_trans_reply_event st e
  (r.1, q, r.2)

/-- The quote side of `_quote_listener_loop` in
`src/quik_connector/core/quik_connector.py`: each generated quote is put
on the bounded queue, dropped when full. -/
def core_quote_push (q : List PushEvent) (payload : Int) : List PushEvent × Bool :=
  put_nowait q (PushEvent.quote payload)

/-- Count the cancel transactions in a trace. -/
def countCancels (tr : List TraceAct) : Nat :=
  tr.countP (fun a => match a with
    | TraceAct.dispatchCancel _ _ => true
    | _ => false)

/-- Count the new-placement transactions in a trace. -/
def countPlaces (tr : List TraceAct) : Nat :=
  tr.countP (fun a => match a with
    | TraceAct.dispatchPlace _ _ => true
    | _ => false)

/-- A fresh `OrderManager` state: empty correlation maps and tables. -/
def emptyState : OMState :=
  { quikToOrm := []
    ormToQuik := []
    transToOrm := []
    ormToOrderKey := []
    ormToContract := []
    ormToAccount := []
    ormToClient := []
    orders := []
    pairs := []
    instruments := []
    assets := [] }

/-- An inbound event with no fields set. -/
def emptyQEvent : QEvent :=
  { orderKey := none
    orderNum := none
    transId := none
    status := none
    filled := none
    qty := none
    price := none
    errTruthy := false
    account := none
    clientCode := none }

/-- The spec's P&L scenario pair: two legs `A1`/`A2`, all four ratios 1. -/
def scenarioPair : PairRec :=
  { asset1 := some "A1"
    asset2 := some "A2"
    qtyRatio1 := some 1
    qtyRatio2 := some 1
    priceRatio1 := some 1
    priceRatio2 := some 1
    execPrice := none
    execQty := none }

/-- The ticker → alias map of the scenario. -/
def scenarioAliasMap : List (String × String) := [("T1", "A1"), ("T2", "A2")]

/-- A filled scenario order: `filled` lots at `execPrice`, on the given
instrument/ticker with the given side. -/
def scenarioOrder (iid : Int) (sd : Side) (p : ℚ) (f : Int) : OrderRec :=
  { instrumentId := iid
    side := sd
    price := p
    qty := f
    filled := some f
    leavesQty := some 0
    execPrice := some p
    status := OrderStatus.FILLED
    quikNum := none
    strategyId := none
    pairId := some 7 }

/-- The scenario orders: leg 1 BUY 100@10.0 (`T1`), leg 2 SELL 100@10.5
(`T2`). -/
def scenarioOrders : List (OrderRec × Option String) :=
  [(scenarioOrder 1 Side.LONG 10 100, some "T1"),
    (scenarioOrder 2 Side.SHORT 10.5 100, some "T2")]

/-- The scenario orders with both BUY/SELL sides flipped. -/
def scenarioOrdersFlipped : List (OrderRec × Option String) :=
  [(scenarioOrder 1 Side.SHORT 10 100, some "T1"),
    (scenarioOrder 2 Side.LONG 10.5 100, some "T2")]

/-! ## Theorems -/

theorem pyOrInt_some_zero (n : Int) : pyOrInt (some n) 0 = n := by
  show (if n = 0 then (0 : Int) else n) = n
  split <;> omega

theorem pyOrQ_some_zero (v : ℚ) : pyOrQ (some v) 0 = v := by
  show (if v = 0 then (0 : ℚ) else v) = v
  split <;> simp_all

theorem specFillStep_fst (acc : Int × ℚ) (f : Int × ℚ) :
    (specFillStep acc f).1 = acc.1 + f.1 := rfl

theorem foldl_specFillStep_fst (fills : List (Int × ℚ)) :
    ∀ acc : Int × ℚ, (fills.foldl specFillStep acc).1 = acc.1 + (fills.map (·.1)).sum := by
  induction fills with
  | nil => intro acc; simp
  | cons f rest ih =>
    intro acc
    simp only [List.foldl_cons, List.map_cons, List.sum_cons, ih, specFillStep]
    ring

theorem run_trades_filled_exec (fills : List (Int × ℚ))
    (h : ∀ f ∈ fills, 0 < f.1 ∧ 0 < f.2) :
    ∀ (o : OrderRec) (n : Int) (e : ℚ), o.filled = some n → 0 ≤ n →
      (0 < n → o.execPrice = some e) →
      (run_trades o fills).filled = some (fills.foldl specFillStep (n, e)).1 ∧
      (0 < (fills.foldl specFillStep (n, e)).1 →
        (run_trades o fills).execPrice = some (fills.foldl specFillStep (n, e)).2) := by
  induction fills with
  | nil =>
    intro o n e hf _ he
    exact ⟨hf, fun hn => he hn⟩
  | cons f rest ih =>
    intro o n e hf hn he
    obtain ⟨hq, hp⟩ := h f (List.mem_cons_self f rest)
    have hrest : ∀ g ∈ rest, 0 < g.1 ∧ 0 < g.2 := fun g hg => h g (List.mem_cons_of_mem f hg)
    have hfill : (apply_trade o f.1 f.2).filled = some (n + f.1) := by
      simp [apply_trade, hf, pyOrInt_some_zero]
    have hexec : (apply_trade o f.1 f.2).execPrice =
        some (if n = 0 then f.2 else (e * n + f.2 * f.1) / ((n : ℚ) + (f.1 : ℚ))) := by
      by_cases h0 : n = 0
      · simp [apply_trade, hf, pyOrInt_some_zero, hq, hp, h0]
      · have hpos : 0 < n := lt_of_le_of_ne hn (Ne.symm h0)
        simp only [apply_trade, hf, pyOrInt_some_zero, he hpos, pyOrQ_some_zero]
        rw [if_pos ⟨hq, hp⟩, if_neg h0, if_neg h0]
        push_cast
        ring_nf
    have h2 := ih (fun g hg => hrest g hg) (apply_trade o f.1 f.2) (n + f.1)
      (if n = 0 then f.2 else (e * n + f.2 * f.1) / ((n : ℚ) + (f.1 : ℚ)))
      hfill (by omega) (fun _ => hexec)
    have hfold : (f :: rest).foldl specFillStep (n, e) =
        rest.foldl specFillStep
          (n + f.1, if n = 0 then f.2 else (e * n + f.2 * f.1) / ((n : ℚ) + (f.1 : ℚ))) := by
      simp only [List.foldl_cons, specFillStep]
    rw [show run_trades o (f :: rest) = run_trades (apply_trade o f.1 f.2) rest from rfl, hfold]
    exact h2

/-- C1: ingesting a sequence of positive-quantity, positive-price trade
events through `on_trade_event`'s per-order update makes each fill add
its quantity to `filled`, sets the execution price to the first fill's
price on the first fill, and updates it to
`(execPrice*prevFilled + fillPrice*fillQty)/filled` on every subsequent
fill — i.e. the code refines the spec recurrence `specFillRun`. -/
theorem trade_fill_vwap (iid : Int) (sd : Side) (prc : ℚ) (qty : Int)
    (fills : List (Int × ℚ)) (h : ∀ f ∈ fills, 0 < f.1 ∧ 0 < f.2) :
    (run_trades (freshOrder iid sd prc qty) fills).filled = some (specFillRun fills).1 ∧
    (fills ≠ [] →
      (run_trades (freshOrder iid sd prc qty) fills).execPrice = some (specFillRun fills).2) := by
  have h0 := run_trades_filled_exec fills h (freshOrder iid sd prc qty) 0 0 rfl le_rfl
    (fun hlt => absurd hlt (lt_irrefl 0))
  refine ⟨h0.1, fun hne => h0.2 ?_⟩
  rw [foldl_specFillStep_fst fills (0, 0)]
  have hall : ∀ g ∈ fills.map (·.1), 0 < g := by
    intro g hg
    obtain ⟨f, hf, rfl⟩ := List.mem_map.mp hg
    exact (h f hf).1
  obtain ⟨f, hf⟩ := List.exists_mem_of_ne_nil fills hne
  have hmem : f.1 ∈ fills.map (·.1) := List.mem_map.mpr ⟨f, hf, rfl⟩
  have hsum : 0 < (fills.map (·.1)).sum := by
    have hle := List.single_le_sum (fun g hg => le_of_lt (hall g hg)) f.1 hmem
    exact lt_of_lt_of_le (hall f.1 hmem) hle
  omega

/-- C1 witness: two fills 100@10 then 50@16 give `filled = 150` and a
running VWAP of `12`. -/
theorem trade_fill_vwap_witness :
    (run_trades (freshOrder 1 Side.LONG 10 200) [((100 : Int), (10 : ℚ)), (50, 16)]).filled =
      some 150 ∧
    (run_trades (freshOrder 1 Side.LONG 10 200) [((100 : Int), (10 : ℚ)), (50, 16)]).execPrice =
      some 12 := by
  obtain ⟨h1, h2⟩ := trade_fill_vwap 1 Side.LONG 10 200 [(100, 10), (50, 16)] (by decide)
  refine ⟨by rw [h1]; norm_num [specFillRun, specFillStep],
    by rw [h2 (by decide)]; norm_num [specFillRun, specFillStep]⟩

/-- C2 counterexample: an order with `qty = 10` is partially filled
(8@20), then CANCELLED by a transaction reply, yet a late trade event
(5@21) is still applied by `on_trade_event`'s update: `filled` becomes
13, `leaves_qty` moves from 2 to 0, and the status is overwritten to
FILLED — so leaves is not frozen in a terminal state, fills are still
applied, and `filled + leaves = 13 ≠ 10` in a non-terminal status. -/
theorem terminal_sticky_counterexample :
    (run_oevents (freshOrder 1 Side.LONG 10 10)
        [OEvent.trade 8 20, OEvent.reply false (some OrderStatus.CANCELLED)]).status =
      OrderStatus.CANCELLED ∧
    (run_oevents (freshOrder 1 Side.LONG 10 10)
        [OEvent.trade 8 20, OEvent.reply false (some OrderStatus.CANCELLED)]).leavesQty =
      some 2 ∧
    (run_oevents (freshOrder 1 Side.LONG 10 10)
        [OEvent.trade 8 20, OEvent.reply false (some OrderStatus.CANCELLED),
          OEvent.trade 5 21]).filled = some 13 ∧
    (run_oevents (freshOrder 1 Side.LONG 10 10)
        [OEvent.trade 8 20, OEvent.reply false (some OrderStatus.CANCELLED),
          OEvent.trade 5 21]).leavesQty = some 0 ∧
    (run_oevents (freshOrder 1 Side.LONG 10 10)
        [OEvent.trade 8 20, OEvent.reply false (some OrderStatus.CANCELLED),
          OEvent.trade 5 21]).status = OrderStatus.FILLED ∧
    (13 : Int) + 0 ≠ 10 := by decide

theorem apply_oevent_leavesOk (o : OrderRec) (e : OEvent) (h : leavesOk o) :
    leavesOk (apply_oevent o e) := by
  cases e with
  | trade q p =>
    show leavesOk (apply_trade o q p)
    simp [apply_trade, leavesOk, pyOrInt_some_zero]
  | statusUpd s f =>
    show leavesOk (update_order_status_rec o s f)
    cases f with
    | none =>
      cases s <;> simpa [leavesOk, update_order_status_rec] using h
    | some fv =>
      cases s <;> simp [leavesOk, update_order_status_rec, pyOrInt_some_zero]
  | reply err s =>
    show leavesOk (apply_trans_reply_rec o err s)
    unfold apply_trans_reply_rec
    split
    · simpa [leavesOk] using h
    · split
      · simpa [leavesOk] using h
      · exact h

/-- C2 amended: the bookkeeping invariant the code actually maintains is
`leaves_qty = max(qty - filled, 0)` after every ingested event — hence
`filled + leaves = qty` whenever `filled ≤ qty`, regardless of status.
Terminal states do not freeze the fill bookkeeping: a trade event
arriving after CANCELLED/REJECTED is still applied to `filled`/
`leaves_qty` and resets the status to PARTIAL/FILLED (see the
counterexample). -/
theorem leaves_bookkeeping_invariant (o : OrderRec) (evs : List OEvent)
    (h : leavesOk o) :
    leavesOk (run_oevents o evs) ∧
    (pyOrInt (run_oevents o evs).filled 0 ≤ (run_oevents o evs).qty →
      pyOrInt (run_oevents o evs).filled 0 + (run_oevents o evs).leavesQty.getD 0 =
        (run_oevents o evs).qty) := by
  have hinv : leavesOk (run_oevents o evs) := by
    induction evs generalizing o with
    | nil => exact h
    | cons e rest ih =>
      exact ih (apply_oevent o e) (apply_oevent_leavesOk o e h)
  refine ⟨hinv, fun hle => ?_⟩
  unfold leavesOk at hinv
  rw [hinv]
  simp only [Option.getD_some]
  omega

theorem isLeg1_true (pair : PairRec) (aliasMap : List (String × String))
    (o : OrderRec × Option String) (hproc : specProcessed o = true)
    (h1 : o.2.bind (lookupS aliasMap) = pair.asset1) :
    isLeg1 pair aliasMap o = true := by
  simp [isLeg1, hproc, specOrderAlias, h1]

theorem isLeg1_false_alias (pair : PairRec) (aliasMap : List (String × String))
    (o : OrderRec × Option String)
    (h1 : ¬ o.2.bind (lookupS aliasMap) = pair.asset1) :
    isLeg1 pair aliasMap o = false := by
  simp [isLeg1, specOrderAlias, h1]

theorem isLeg2_true (pair : PairRec) (aliasMap : List (String × String))
    (o : OrderRec × Option String) (hproc : specProcessed o = true)
    (h2 : o.2.bind (lookupS aliasMap) = pair.asset2) :
    isLeg2 pair aliasMap o = true := by
  simp [isLeg2, hproc, specOrderAlias, h2]

theorem isLeg2_false_alias (pair : PairRec) (aliasMap : List (String × String))
    (o : OrderRec × Option String)
    (h2 : ¬ o.2.bind (lookupS aliasMap) = pair.asset2) :
    isLeg2 pair aliasMap o = false := by
  simp [isLeg2, specOrderAlias, h2]

theorem pair_scan_foldl (pair : PairRec) (aliasMap : List (String × String))
    (hne : pair.asset1 ≠ pair.asset2) :
    ∀ (orders : List (OrderRec × Option String)) (acc : PairAcc),
      (orders.foldl (pair_scan_step pair aliasMap) acc).sum1 =
        acc.sum1 + ((orders.filter (isLeg1 pair aliasMap)).map
          (specContrib pair.qtyRatio1)).sum ∧
      (orders.foldl (pair_scan_step pair aliasMap) acc).sum2 =
        acc.sum2 + ((orders.filter (isLeg2 pair aliasMap)).map
          (specContrib pair.qtyRatio2)).sum ∧
      (orders.foldl (pair_scan_step pair aliasMap) acc).execQty =
        acc.execQty + ((orders.filter (isLeg1 pair aliasMap)).map
          (fun o => pyOrInt o.1.filled 0)).sum := by
  intro orders
  induction orders with
  | nil => intro acc; refine ⟨by simp, by simp, by simp⟩
  | cons o os ih =>
    intro acc
    rw [List.foldl_cons]
    by_cases hskip : pyOrQ o.1.execPrice 0 = 0 ∨ pyOrInt o.1.filled 0 = 0
    · have hproc : specProcessed o = false := by
        simp [specProcessed, hskip]
      have hL1 : isLeg1 pair aliasMap o = false := by simp [isLeg1, hproc]
      have hL2 : isLeg2 pair aliasMap o = false := by simp [isLeg2, hproc]
      have hacc : pair_scan_step pair aliasMap acc o = acc := by
        unfold pair_scan_step; rw [if_pos hskip]
      rw [hacc]
      obtain ⟨ih1, ih2, ih3⟩ := ih acc
      rw [ih1, ih2, ih3, List.filter_cons_of_neg (by simp [hL1]),
        List.filter_cons_of_neg (by simp [hL2])]
      exact ⟨rfl, rfl, rfl⟩
    · have hproc : specProcessed o = true := by
        simp only [specProcessed]
        simp [hskip]
      have hstep : pair_scan_step pair aliasMap acc o =
          (if o.2.bind (lookupS aliasMap) = pair.asset1 then
            { acc with
                sum1 := acc.sum1 +
                  pyOrQ o.1.execPrice 0 * pyOrInt o.1.filled 0 / pyRatioOr1 pair.qtyRatio1
                execQty := acc.execQty + pyOrInt o.1.filled 0 }
          else if o.2.bind (lookupS aliasMap) = pair.asset2 then
            { acc with
                sum2 := acc.sum2 +
                  pyOrQ o.1.execPrice 0 * pyOrInt o.1.filled 0 / pyRatioOr1 pair.qtyRatio2 }
          else acc) := by
        unfold pair_scan_step
        rw [if_neg hskip]
      by_cases h1 : o.2.bind (lookupS aliasMap) = pair.asset1
      · have h2 : ¬ o.2.bind (lookupS aliasMap) = pair.asset2 := by
          rw [h1]; exact hne
        rw [hstep, if_pos h1]
        obtain ⟨ih1, ih2, ih3⟩ := ih _
        rw [ih1, ih2, ih3,
          List.filter_cons_of_pos (by simp [isLeg1_true pair aliasMap o hproc h1]),
          List.filter_cons_of_neg (by simp [isLeg2_false_alias pair aliasMap o h2]),
          List.map_cons, List.sum_cons]
        refine ⟨?_, ?_, ?_⟩ <;> simp [specContrib] <;> ring
      · by_cases h2 : o.2.bind (lookupS aliasMap) = pair.asset2
        · rw [hstep, if_neg h1, if_pos h2]
          obtain ⟨ih1, ih2, ih3⟩ := ih _
          rw [ih1, ih2, ih3,
            List.filter_cons_of_neg (by simp [isLeg1_false_alias pair aliasMap o h1]),
            List.filter_cons_of_pos (by simp [isLeg2_true pair aliasMap o hproc h2]),
            List.map_cons, List.sum_cons]
          refine ⟨?_, ?_, ?_⟩ <;> simp [specContrib] <;> ring
        · rw [hstep, if_neg h1, if_neg h2]
          obtain ⟨ih1, ih2, ih3⟩ := ih acc
          rw [ih1, ih2, ih3,
            List.filter_cons_of_neg (by simp [isLeg1_false_alias pair aliasMap o h1]),
            List.filter_cons_of_neg (by simp [isLeg2_false_alias pair aliasMap o h2])]
          exact ⟨rfl, rfl, rfl⟩
/-- C3: for a pair with distinct leg aliases, the full rescan of
`_update_pair_exec_price` computes exactly the spec's filter/sum form:
every processed order contributes `(execPrice*filled)/legQtyRatio` to
the sum of the leg its alias resolves to, realized P&L is
`Σ(leg1)*priceRatio1 − Σ(leg2)*priceRatio2`, executed quantity is the
total `filled` attributed to leg 1, and orders resolving to neither
alias are excluded. -/
theorem pair_pnl_rescan (pair : PairRec) (aliasMap : List (String × String))
    (orders : List (OrderRec × Option String)) (hne : pair.asset1 ≠ pair.asset2) :
    (pair_rescan pair aliasMap orders).execPrice =
      some (specPairPnl pair aliasMap orders).1 ∧
    (pair_rescan pair aliasMap orders).execQty =
      some (specPairPnl pair aliasMap orders).2 := by
  obtain ⟨h1, h2, h3⟩ := pair_scan_foldl pair aliasMap hne orders ⟨0, 0, 0⟩
  simp only [pair_rescan, specPairPnl]
  rw [h1, h2, h3]
  simp

/-- C3 witness: the spec's P&L scenario — all ratios 1, leg 1 filled
100@10.0, leg 2 filled 100@10.5 — yields realized P&L −50 and executed
quantity 100. -/
theorem pair_pnl_rescan_witness :
    (pair_rescan scenarioPair scenarioAliasMap scenarioOrders).execPrice =
      some (-50) ∧
    (pair_rescan scenarioPair scenarioAliasMap scenarioOrders).execQty =
      some 100 := by
  obtain ⟨h1, h2⟩ := pair_pnl_rescan scenarioPair scenarioAliasMap scenarioOrders
    (by simp [scenarioPair])
  have hL1a : isLeg1 scenarioPair scenarioAliasMap
      (scenarioOrder 1 Side.LONG 10 100, some "T1") = true := by
    simp [isLeg1, specProcessed, specOrderAlias, scenarioPair,
      scenarioAliasMap, scenarioOrder, lookupS, pyOrQ, pyOrInt, List.find?]
  have hL1b : isLeg1 scenarioPair scenarioAliasMap
      (scenarioOrder 2 Side.SHORT 10.5 100, some "T2") = false := by
    simp [isLeg1, specProcessed, specOrderAlias, scenarioPair,
      scenarioAliasMap, scenarioOrder, lookupS, pyOrQ, pyOrInt, List.find?]
  have hL2a : isLeg2 scenarioPair scenarioAliasMap
      (scenarioOrder 1 Side.LONG 10 100, some "T1") = false := by
    simp [isLeg2, specProcessed, specOrderAlias, scenarioPair,
      scenarioAliasMap, scenarioOrder, lookupS, pyOrQ, pyOrInt, List.find?]
  have hL2b : isLeg2 scenarioPair scenarioAliasMap
      (scenarioOrder 2 Side.SHORT 10.5 100, some "T2") = true := by
    simp [isLeg2, specProcessed, specOrderAlias, scenarioPair,
      scenarioAliasMap, scenarioOrder, lookupS, pyOrQ, pyOrInt, List.find?]
    norm_num
  have hf1 : scenarioOrders.filter (isLeg1 scenarioPair scenarioAliasMap) =
      [(scenarioOrder 1 Side.LONG 10 100, some "T1")] := by
    unfold scenarioOrders
    rw [List.filter_cons_of_pos hL1a, List.filter_cons_of_neg (by simp [hL1b]),
      List.filter_nil]
  have hf2 : scenarioOrders.filter (isLeg2 scenarioPair scenarioAliasMap) =
      [(scenarioOrder 2 Side.SHORT 10.5 100, some "T2")] := by
    unfold scenarioOrders
    rw [List.filter_cons_of_neg (by simp [hL2a]), List.filter_cons_of_pos hL2b,
      List.filter_nil]
  constructor
  · rw [h1]
    simp only [specPairPnl]
    rw [hf1, hf2]
    norm_num [specContrib, scenarioOrder, scenarioPair, pyOrQ, pyOrInt, pyRatioOr1]
  · rw [h2]
    simp only [specPairPnl]
    rw [hf1]
    norm_num [scenarioOrder, pyOrInt]

theorem eqExceptSide_fields (a b : OrderRec × Option String)
    (h : eqExceptSide a b) :
    a.1.execPrice = b.1.execPrice ∧ a.1.filled = b.1.filled ∧ a.2 = b.2 := by
  obtain ⟨ht, hrec⟩ := h
  refine ⟨?_, ?_, ht⟩
  · have h2 := congrArg OrderRec.execPrice hrec
    simpa using h2
  · have h2 := congrArg OrderRec.filled hrec
    simpa using h2

/-- C10: the pair P&L rescan never reads an order's BUY/SELL side —
for any two order lists that agree except on the `side` field, the
recomputed `exec_price` (realized P&L) and `exec_qty` are identical. -/
theorem pair_pnl_side_blind (pair : PairRec) (aliasMap : List (String × String))
    (os1 os2 : List (OrderRec × Option String))
    (h : List.Forall₂ eqExceptSide os1 os2) :
    pair_rescan pair aliasMap os1 = pair_rescan pair aliasMap os2 := by
  have hfold : ∀ acc : PairAcc,
      os1.foldl (pair_scan_step pair aliasMap) acc =
        os2.foldl (pair_scan_step pair aliasMap) acc := by
    induction h with
    | nil => intro acc; rfl
    | cons hab htail ih =>
      intro acc
      rename_i a b as bs
      obtain ⟨he, hf, ht⟩ := eqExceptSide_fields a b hab
      have hstep : pair_scan_step pair aliasMap acc a =
          pair_scan_step pair aliasMap acc b := by
        simp only [pair_scan_step, he, hf, ht]
      rw [List.foldl_cons, List.foldl_cons, hstep, ih]
  unfold pair_rescan
  rw [hfold ⟨0, 0, 0⟩]

/-- C10 witness: flipping the sides of both orders of the C3 scenario
leaves the recomputed pair row unchanged. -/
theorem pair_pnl_side_blind_witness :
    pair_rescan scenarioPair scenarioAliasMap scenarioOrders =
      pair_rescan scenarioPair scenarioAliasMap scenarioOrdersFlipped :=
  pair_pnl_side_blind _ _ _ _
    (List.Forall₂.cons ⟨rfl, rfl⟩ (List.Forall₂.cons ⟨rfl, rfl⟩ List.Forall₂.nil))

/-- C2 amended witness: a fresh order of quantity 5 filled 3 has
`leaves_qty = 2` and `filled + leaves = qty`. -/
theorem leaves_bookkeeping_invariant_witness :
    leavesOk (run_oevents (freshOrder 1 Side.LONG 10 5) [OEvent.trade 3 7]) ∧
    pyOrInt (run_oevents (freshOrder 1 Side.LONG 10 5) [OEvent.trade 3 7]).filled 0 +
      (run_oevents (freshOrder 1 Side.LONG 10 5) [OEvent.trade 3 7]).leavesQty.getD 0 =
      (run_oevents (freshOrder 1 Side.LONG 10 5) [OEvent.trade 3 7]).qty := by
  have h := leaves_bookkeeping_invariant (freshOrder 1 Side.LONG 10 5)
    [OEvent.trade 3 7] (by decide)
  exact ⟨h.1, h.2 (by decide)⟩

theorem entry_scan_eq_find (levels : List ℚ) (sb sa : ℚ) :
    entry_scan levels sb sa =
      (levels.find? (fun l => decide (l ≤ sb) || decide (sa ≤ -l))).map
        (fun l => (if l ≤ sb then SpreadDir.shortSpread else SpreadDir.longSpread, l)) := by
  induction levels with
  | nil => rfl
  | cons l ls ih =>
    unfold entry_scan
    by_cases hb : l ≤ sb
    · simp [List.find?, hb]
    · by_cases ha : sa ≤ -l
      · simp [List.find?, hb, ha]
      · simp only [if_neg hb, if_neg ha, ih, List.find?]
        simp [hb, ha]

/-- C8: from FLAT the entry loop scans the thresholds in ascending
(sorted) order and fires on the first threshold crossed — `spread_bid ≥
threshold` enters short-spread, else `spread_ask ≤ −threshold` enters
long-spread — which is exactly `find?` over the sorted levels with
bid priority; in particular, thresholds `[0.5, 1.0]` with `spread_bid =
0.6` enter short-spread at `0.5`, not `1.0`. -/
theorem entry_first_threshold :
    (∀ (levels : List ℚ) (sb sa : ℚ),
      entry_decision levels sb sa =
        ((levels.insertionSort (· ≤ ·)).find?
            (fun l => decide (l ≤ sb) || decide (sa ≤ -l))).map
          (fun l => (if l ≤ sb then SpreadDir.shortSpread else SpreadDir.longSpread, l)) ∧
      List.Sorted (· ≤ ·) (levels.insertionSort (· ≤ ·))) ∧
    entry_decision [0.5, 1] 0.6 0.65 = some (SpreadDir.shortSpread, 0.5) := by
  constructor
  · intro levels sb sa
    exact ⟨entry_scan_eq_find _ sb sa, List.sorted_insertionSort (· ≤ ·) levels⟩
  · have hs : ([0.5, 1] : List ℚ).insertionSort (· ≤ ·) = [0.5, 1] := by
      norm_num [List.insertionSort, List.orderedInsert]
    unfold entry_decision
    rw [hs]
    unfold entry_scan
    norm_num

theorem lookup_insertMap_self {α : Type} (m : List (Int × α)) (k : Int) (v : α) :
    lookup (insertMap m k v) k = some v := by
  simp [lookup, insertMap, List.find?]

theorem trade_update_quikToOrm (st : OMState) (orm : Int) (e : QEvent) :
    (trade_update st orm e).quikToOrm = st.quikToOrm ∧
    (trade_update st orm e).transToOrm = st.transToOrm := by
  unfold trade_update update_pair_exec_price dbSetOrder
  dsimp only
  repeat' split
  all_goals exact ⟨rfl, rfl⟩

theorem order_event_body_quikToOrm (st : OMState) (orm : Int) (e : QEvent) :
    (order_event_body st orm e).quikToOrm = st.quikToOrm := by
  unfold order_event_body update_order_status dbSetOrder
  dsimp only
  repeat' split
  all_goals rfl

theorem resolve_trade_event_orElse (st : OMState) (e : QEvent) :
    resolve_trade_event st e =
      (e.orderNum.bind (lookup st.quikToOrm)).orElse
        (fun _ => e.transId.bind (lookup st.transToOrm)) := by
  unfold resolve_trade_event
  cases e.orderNum.bind (lookup st.quikToOrm) <;> rfl

theorem resolve_trans_reply_event_orElse (st : OMState) (e : QEvent) :
    resolve_trans_reply_event st e =
      (e.transId.bind (lookup st.transToOrm)).orElse
        (fun _ => e.orderNum.bind (lookup st.quikToOrm)) := by
  unfold resolve_trans_reply_event
  cases e.transId.bind (lookup st.transToOrm) <;> rfl

/-- C5 counterexample: `on_trans_reply_event` resolves by transaction id
FIRST — an event whose venue order id `100` is bound to local order 1
while its transaction id `200` is bound to local order 2 resolves to 2,
not 1; and `on_trade_event` never learns a venue order id: a trade event
carrying the unseen venue order id `300` alongside the known transaction
id `200` leaves the venue-id map empty. -/
theorem resolution_order_counterexample :
    resolve_trans_reply_event
        { emptyState with quikToOrm := [(100, 1)], transToOrm := [(200, 2)] }
        { emptyQEvent with orderNum := some 100, transId := some 200 } = some 2 ∧
    lookup [((100 : Int), (1 : Int))] 100 = some 1 ∧
    (2 : Int) ≠ 1 ∧
    (on_trade_event { emptyState with transToOrm := [(200, 2)] }
        { emptyQEvent with orderNum := some 300, transId := some 200 }).1.quikToOrm =
      [] := by
  refine ⟨by decide, by decide, by decide, by decide⟩

/-- C5 amended: `on_order_event` resolves by order key, then venue order
id, then transaction id, and learns a previously-unseen venue order id
when resolution came through the transaction id; `on_trade_event`
resolves by venue order id then transaction id but never learns a venue
order id; `on_trans_reply_event` resolves by transaction id first,
falling back to venue order id, and learns a previously-unseen venue
order id after resolving. -/
theorem event_resolution_and_learning (st : OMState) (e : QEvent) :
    resolve_trade_event st e =
      (e.orderNum.bind (lookup st.quikToOrm)).orElse
        (fun _ => e.transId.bind (lookup st.transToOrm)) ∧
    resolve_trans_reply_event st e =
      (e.transId.bind (lookup st.transToOrm)).orElse
        (fun _ => e.orderNum.bind (lookup st.quikToOrm)) ∧
    (on_trade_event st e).1.quikToOrm = st.quikToOrm ∧
    (on_trade_event st e).1.transToOrm = st.transToOrm ∧
    (∀ qn orm, e.orderKey.bind (lookup st.quikToOrm) = none →
      e.orderNum = some qn → lookup st.quikToOrm qn = none →
      e.transId.bind (lookup st.transToOrm) = some orm →
      lookup (on_order_event st e).1.quikToOrm qn = some orm) ∧
    (∀ qn orm, e.transId.bind (lookup st.transToOrm) = some orm →
      e.orderNum = some qn → lookup st.quikToOrm qn = none →
      lookup (on_trans_reply_event st e).1.quikToOrm qn = some orm) := by
  refine ⟨resolve_trade_event_orElse st e, resolve_trans_reply_event_orElse st e,
    ?_, ?_, ?_, ?_⟩
  · unfold on_trade_event
    cases resolve_trade_event st e with
    | none => rfl
    | some orm => exact (trade_update_quikToOrm st orm e).1
  · unfold on_trade_event
    cases resolve_trade_event st e with
    | none => rfl
    | some orm => exact (trade_update_quikToOrm st orm e).2
  · intro qn orm hkey hqn hlook htr
    unfold on_order_event
    have hnum : e.orderNum.bind (lookup st.quikToOrm) = none := by
      rw [hqn]
      exact hlook
    rw [hkey, hnum, htr, hqn]
    simp only [if_pos hlook]
    rw [order_event_body_quikToOrm]
    unfold register_quik_mapping
    exact lookup_insertMap_self st.quikToOrm qn orm
  · intro qn orm htr hqn hlook
    have hres : resolve_trans_reply_event st e = some orm := by
      unfold resolve_trans_reply_event
      rw [htr]
    unfold on_trans_reply_event
    rw [hres, hqn]
    simp only [if_pos hlook]
    have hq : (register_quik_mapping st qn orm).quikToOrm =
        insertMap st.quikToOrm qn orm := rfl
    cases hdb : lookup (register_quik_mapping st qn orm).orders orm with
    | none =>
      dsimp only
      rw [hq]
      exact lookup_insertMap_self st.quikToOrm qn orm
    | some o =>
      dsimp only [dbSetOrder]
      rw [hq]
      exact lookup_insertMap_self st.quikToOrm qn orm

/-- C5 amended witness: an order event and a trans-reply event carrying
the unseen venue order id `300` and the known transaction id `200`
(bound to local order 2) bind `300 ↦ 2`. -/
theorem event_resolution_and_learning_witness :
    lookup (on_order_event { emptyState with transToOrm := [(200, 2)] }
        { emptyQEvent with orderNum := some 300, transId := some 200 }).1.quikToOrm
      300 = some 2 ∧
    lookup (on_trans_reply_event { emptyState with transToOrm := [(200, 2)] }
        { emptyQEvent with orderNum := some 300, transId := some 200 }).1.quikToOrm
      300 = some 2 := by
  have h := event_resolution_and_learning { emptyState with transToOrm := [(200, 2)] }
    { emptyQEvent with orderNum := some 300, transId := some 200 }
  exact ⟨h.2.2.2.2.1 300 2 (by decide) rfl (by decide) (by decide),
    h.2.2.2.2.2 300 2 (by decide) rfl (by decide)⟩

/-- C6: an inbound order, trade, or transaction-reply event whose ids
all fail to resolve to a known local id makes the handler log a warning
and return with the state untouched — no order row, no correlation map,
nothing is mutated (the handlers are total functions: no exception can
propagate). -/
theorem correlation_miss_drops_event (st : OMState) (e : QEvent)
    (hkey : e.orderKey.bind (lookup st.quikToOrm) = none)
    (hnum : e.orderNum.bind (lookup st.quikToOrm) = none)
    (htrans : e.transId.bind (lookup st.transToOrm) = none) :
    on_order_event st e = (st, [LogAct.warnOrderEvent e.orderNum e.transId]) ∧
    on_trade_event st e = (st, [LogAct.warnTradeEvent e.orderNum e.transId]) ∧
    on_trans_reply_event st e = (st, [LogAct.warnTransReply e.orderNum e.transId]) := by
  refine ⟨?_, ?_, ?_⟩
  · unfold on_order_event
    rw [hkey, hnum, htrans]
  · unfold on_trade_event resolve_trade_event
    rw [hnum, htrans]
  · unfold on_trans_reply_event resolve_trans_reply_event
    rw [htrans, hnum]

/-- C6 witness: an event carrying unknown venue order id 9 and unknown
transaction id 8 is dropped with a warning by all three handlers of a
fresh engine. -/
theorem correlation_miss_drops_event_witness :
    on_order_event emptyState { emptyQEvent with orderNum := some 9, transId := some 8 } =
      (emptyState, [LogAct.warnOrderEvent (some 9) (some 8)]) ∧
    on_trade_event emptyState { emptyQEvent with orderNum := some 9, transId := some 8 } =
      (emptyState, [LogAct.warnTradeEvent (some 9) (some 8)]) ∧
    on_trans_reply_event emptyState
        { emptyQEvent with orderNum := some 9, transId := some 8 } =
      (emptyState, [LogAct.warnTransReply (some 9) (some 8)]) :=
  correlation_miss_drops_event emptyState
    { emptyQEvent with orderNum := some 9, transId := some 8 }
    (by decide) (by decide) (by decide)

theorem place_trace_eq (st : OMState) (od : OrderData) (ormId : Int)
    (sid : Option Int) (gid : Int) (resp : QResp) :
    (place_limit_order st od ormId sid gid resp).2.2 =
      (match od.transId with
        | none => [TraceAct.genTransId gid]
        | some _ => []) ++
      (match place_trans_id od gid with
        | some t => [TraceAct.regTrans t ormId]
        | none => []) ++
      [TraceAct.dispatchPlace
        (match od.transId with
          | none => { od with transId := some (toString gid) }
          | some _ => od) ormId] ++
      (match resp.orderNum with
        | some qn => [TraceAct.regQuik qn ormId, TraceAct.persistQuikNum ormId qn]
        | none => []) := by
  unfold place_limit_order
  dsimp only
  repeat' split
  all_goals simp_all [place_trans_id]

theorem place_state_eq (st : OMState) (od : OrderData) (ormId : Int)
    (sid : Option Int) (gid : Int) (resp : QResp) :
    (place_limit_order st od ormId sid gid resp).1 =
      (let st1 := match place_trans_id od gid with
        | some t => register_trans_mapping st t ormId
        | none => st
      let st4 := place_cache_context st1 od ormId
      match resp.orderNum with
      | some qn => update_order_quik_num (register_quik_mapping st4 qn ormId) ormId qn sid
      | none => st4) := by
  unfold place_limit_order
  dsimp only
  repeat' split
  all_goals simp_all [place_trans_id]

theorem update_order_quik_num_quik (st : OMState) (ormId qn : Int)
    (sid : Option Int) :
    (update_order_quik_num st ormId qn sid).quikToOrm = st.quikToOrm ∧
    (update_order_quik_num st ormId qn sid).ormToQuik = st.ormToQuik := by
  unfold update_order_quik_num dbSetOrder
  dsimp only
  repeat' split
  all_goals exact ⟨rfl, rfl⟩

theorem place_cache_context_proj (st : OMState) (od : OrderData) (ormId : Int) :
    (place_cache_context st od ormId).quikToOrm = st.quikToOrm ∧
    (place_cache_context st od ormId).ormToQuik = st.ormToQuik ∧
    (place_cache_context st od ormId).orders = st.orders := by
  unfold place_cache_context
  dsimp only
  repeat' split
  all_goals exact ⟨rfl, rfl, rfl⟩

theorem update_order_quik_num_persists (st : OMState) (ormId qn : Int)
    (sid : Option Int) (o : OrderRec) (ho : lookup st.orders ormId = some o) :
    ∃ o2, lookup (update_order_quik_num st ormId qn sid).orders ormId = some o2 ∧
      o2.quikNum = some qn := by
  unfold update_order_quik_num
  rw [ho]
  dsimp only
  cases sid with
  | none =>
    dsimp only [dbSetOrder]
    exact ⟨_, lookup_insertMap_self _ _ _, rfl⟩
  | some v =>
    dsimp only [dbSetOrder]
    exact ⟨_, lookup_insertMap_self _ _ _, rfl⟩

/-- C7: in `place_limit_order`, whenever a transaction id is obtained
for the request (present and parseable, or freshly generated), its
mapping is registered strictly before the request is dispatched to the
bridge; and when the bridge's immediate reply carries a venue order id,
that id is both registered in the correlation maps and persisted on the
order row. -/
theorem place_registers_trans_before_dispatch (st : OMState) (od : OrderData)
    (ormId : Int) (sid : Option Int) (gid : Int) (resp : QResp) (t : Int)
    (ht : place_trans_id od gid = some t) :
    (∃ i j, i < j ∧
      (place_limit_order st od ormId sid gid resp).2.2.get? i =
        some (TraceAct.regTrans t ormId) ∧
      ∃ odSent, (place_limit_order st od ormId sid gid resp).2.2.get? j =
        some (TraceAct.dispatchPlace odSent ormId)) ∧
    (∀ qn, resp.orderNum = some qn →
      lookup (place_limit_order st od ormId sid gid resp).1.quikToOrm qn =
        some ormId ∧
      ∀ o, lookup st.orders ormId = some o →
        ∃ o2, lookup (place_limit_order st od ormId sid gid resp).1.orders ormId =
          some o2 ∧ o2.quikNum = some qn) := by
  constructor
  · rw [place_trace_eq st od ormId sid gid resp, ht]
    cases hod : od.transId with
    | none =>
      exact ⟨1, 2, by omega, by simp,
        { od with transId := some (toString gid) }, by simp⟩
    | some s =>
      exact ⟨0, 1, by omega, by simp, od, by simp⟩
  · intro qn hresp
    rw [place_state_eq st od ormId sid gid resp]
    dsimp only
    rw [hresp]
    dsimp only
    constructor
    · rw [(update_order_quik_num_quik _ _ _ _).1]
      show lookup (insertMap (place_cache_context _ od ormId).quikToOrm qn ormId) qn = _
      exact lookup_insertMap_self _ _ _
    · intro o ho
      apply update_order_quik_num_persists
      show lookup (place_cache_context _ od ormId).orders ormId = some o
      rw [(place_cache_context_proj _ od ormId).2.2]
      cases hpt : place_trans_id od gid with
      | none => exact ho
      | some t2 => exact ho

/-- C7 witness: placing with no `TRANS_ID` in the payload mints the id
42, registers `42 ↦ 5` before the dispatch in the trace; the reply's
venue order id `77` ends up registered and persisted. -/
theorem place_registers_trans_before_dispatch_witness :
    (∃ i j, i < j ∧
      (place_limit_order
          { emptyState with orders := [(5, freshOrder 1 Side.LONG 10 3)] }
          { transId := none, classCode := some "SPBFUT", secCode := some "SiU5",
            account := some "A", clientCode := none, operation := some "B",
            price := some 10, quantity := some 3 } 5 none 42
          { result := some 0, data := none, orderNum := some 77 }).2.2.get? i =
        some (TraceAct.regTrans 42 5) ∧
      ∃ odSent,
        (place_limit_order
            { emptyState with orders := [(5, freshOrder 1 Side.LONG 10 3)] }
            { transId := none, classCode := some "SPBFUT", secCode := some "SiU5",
              account := some "A", clientCode := none, operation := some "B",
              price := some 10, quantity := some 3 } 5 none 42
            { result := some 0, data := none, orderNum := some 77 }).2.2.get? j =
          some (TraceAct.dispatchPlace odSent 5)) ∧
    lookup (place_limit_order
        { emptyState with orders := [(5, freshOrder 1 Side.LONG 10 3)] }
        { transId := none, classCode := some "SPBFUT", secCode := some "SiU5",
          account := some "A", clientCode := none, operation := some "B",
          price := some 10, quantity := some 3 } 5 none 42
        { result := some 0, data := none, orderNum := some 77 }).1.quikToOrm 77 =
      some 5 := by
  have h := place_registers_trans_before_dispatch
    { emptyState with orders := [(5, freshOrder 1 Side.LONG 10 3)] }
    { transId := none, classCode := some "SPBFUT", secCode := some "SiU5",
      account := some "A", clientCode := none, operation := some "B",
      price := some 10, quantity := some 3 } 5 none 42
    { result := some 0, data := none, orderNum := some 77 } 42 (by decide)
  exact ⟨h.1, (h.2 77 rfl).1⟩

theorem countCancels_append (a b : List TraceAct) :
    countCancels (a ++ b) = countCancels a + countCancels b := by
  unfold countCancels
  exact List.countP_append _ _ _

theorem countPlaces_append (a b : List TraceAct) :
    countPlaces (a ++ b) = countPlaces a + countPlaces b := by
  unfold countPlaces
  exact List.countP_append _ _ _

theorem update_order_price_ormToQuik (st : OMState) (ormId : Int) (p : ℚ)
    (q : Option Int) :
    (update_order_price st ormId p q).ormToQuik = st.ormToQuik := by
  unfold update_order_price dbSetOrder
  dsimp only
  repeat' split
  all_goals rfl

theorem place_ormToQuik_lookup (st : OMState) (od : OrderData) (ormId : Int)
    (sid : Option Int) (gid : Int) (resp : QResp) (qn : Int)
    (hresp : resp.orderNum = some qn) :
    lookup (place_limit_order st od ormId sid gid resp).1.ormToQuik ormId =
      some qn := by
  rw [place_state_eq st od ormId sid gid resp]
  dsimp only
  rw [hresp]
  dsimp only
  rw [(update_order_quik_num_quik _ _ _ _).2]
  show lookup (insertMap (place_cache_context _ od ormId).ormToQuik ormId qn) ormId = _
  exact lookup_insertMap_self _ _ _

theorem place_trace_counts (st : OMState) (od : OrderData) (ormId : Int)
    (sid : Option Int) (gid : Int) (resp : QResp) :
    countCancels (place_limit_order st od ormId sid gid resp).2.2 = 0 ∧
    countPlaces (place_limit_order st od ormId sid gid resp).2.2 = 1 ∧
    ∃ odSent, TraceAct.dispatchPlace odSent ormId ∈
      (place_limit_order st od ormId sid gid resp).2.2 := by
  rw [place_trace_eq st od ormId sid gid resp]
  cases hod : od.transId with
  | none =>
    cases hresp : resp.orderNum <;>
      simp [place_trans_id, hod, countCancels, countPlaces]
  | some s =>
    cases hresp : resp.orderNum <;> cases hti : s.toInt? <;>
      simp [place_trans_id, hod, hti, countCancels, countPlaces]

theorem cancel_order_trace_under (st : OMState) (ormId cT : Int) (cResp : QResp)
    (oldQn : Int) (o : OrderRec) (instr : InstrRec)
    (ho : lookup st.orders ormId = some o)
    (hinstr : lookup st.instruments o.instrumentId = some instr)
    (hqn : lookup st.ormToQuik ormId = some oldQn) :
    (cancel_order st ormId cT cResp).2 =
      [TraceAct.regTrans cT ormId,
        TraceAct.dispatchCancel
          (orderRef (lookup st.ormToOrderKey ormId) (some oldQn)) (some cT)] := by
  unfold cancel_order
  dsimp only
  rw [hqn, ho]
  dsimp only
  rw [hinstr]
  dsimp only
  rw [if_neg (by simp)]

theorem modify_fallback_props (st : OMState) (trPre : List TraceAct) (ormId : Int)
    (newPrice : ℚ) (qtyForMove oqty : Int) (classCode secCode : String)
    (account clientCode : Option String) (operation : String) (cT nT : Int)
    (cResp nResp : QResp) (oldQn : Int) (o : OrderRec) (instr : InstrRec)
    (ho : lookup st.orders ormId = some o)
    (hinstr : lookup st.instruments o.instrumentId = some instr)
    (hqn : lookup st.ormToQuik ormId = some oldQn) :
    ∃ ref trP,
      (modify_fallback st trPre ormId newPrice qtyForMove oqty classCode secCode
        account clientCode operation cT nT cResp nResp).2 =
        trPre ++ [TraceAct.regTrans cT ormId, TraceAct.dispatchCancel ref (some cT),
          TraceAct.settleSleep] ++ trP ∧
      countCancels trP = 0 ∧ countPlaces trP = 1 ∧
      (∃ odSent, TraceAct.dispatchPlace odSent ormId ∈ trP) ∧
      (∀ qn2, nResp.orderNum = some qn2 →
        lookup (modify_fallback st trPre ormId newPrice qtyForMove oqty classCode
          secCode account clientCode operation cT nT
          cResp nResp).1.ormToQuik ormId = some qn2) := by
  obtain ⟨hc0, hp1, hmem⟩ := place_trace_counts (cancel_order st ormId cT cResp).1
    { transId := some (toString nT)
      classCode := some classCode
      secCode := some secCode
      account := account
      clientCode := clientCode
      operation := some operation
      price := some newPrice
      quantity := some (if qtyForMove = 0 then oqty else qtyForMove) }
    ormId none nT nResp
  refine ⟨orderRef (lookup st.ormToOrderKey ormId) (some oldQn), _, ?_, hc0, hp1, hmem, ?_⟩
  · show (modify_fallback st trPre ormId newPrice qtyForMove oqty classCode secCode
      account clientCode operation cT nT cResp nResp).2 = _
    unfold modify_fallback
    dsimp only
    rw [cancel_order_trace_under st ormId cT cResp oldQn o instr ho hinstr hqn]
    simp
  · intro qn2 hresp
    show lookup (update_order_price _ ormId newPrice (some qtyForMove)).ormToQuik
      ormId = some qn2
    rw [update_order_price_ormToQuik]
    exact place_ormToQuik_lookup _ _ ormId none nT nResp qn2 hresp

theorem modify_conclusions_of_fallback (st : OMState) (trPre : List TraceAct)
    (ormId : Int) (newPrice : ℚ) (qtyForMove oqty : Int)
    (classCode secCode : String) (account clientCode : Option String)
    (operation : String) (cT nT : Int) (cResp nResp : QResp) (oldQn : Int)
    (o : OrderRec) (instr : InstrRec)
    (hpreC : countCancels trPre = 0) (hpreP : countPlaces trPre = 0)
    (ho : lookup st.orders ormId = some o)
    (hinstr : lookup st.instruments o.instrumentId = some instr)
    (hqn : lookup st.ormToQuik ormId = some oldQn) :
    countCancels (modify_fallback st trPre ormId newPrice qtyForMove oqty classCode
      secCode account clientCode operation cT nT cResp nResp).2 = 1 ∧
    countPlaces (modify_fallback st trPre ormId newPrice qtyForMove oqty classCode
      secCode account clientCode operation cT nT cResp nResp).2 = 1 ∧
    (∃ trPre2 ref trP,
      (modify_fallback st trPre ormId newPrice qtyForMove oqty classCode secCode
        account clientCode operation cT nT cResp nResp).2 =
        trPre2 ++ [TraceAct.regTrans cT ormId, TraceAct.dispatchCancel ref (some cT),
          TraceAct.settleSleep] ++ trP ∧
      countCancels trPre2 = 0 ∧ countPlaces trPre2 = 0 ∧ countCancels trP = 0 ∧
      (∃ odSent, TraceAct.dispatchPlace odSent ormId ∈ trP)) ∧
    (∀ qn2, nResp.orderNum = some qn2 →
      lookup (modify_fallback st trPre ormId newPrice qtyForMove oqty classCode
        secCode account clientCode operation cT nT
        cResp nResp).1.ormToQuik ormId = some qn2) := by
  obtain ⟨ref, trP, htr, hc0, hp1, hmem, hquik⟩ := modify_fallback_props st trPre
    ormId newPrice qtyForMove oqty classCode secCode account clientCode operation
    cT nT cResp nResp oldQn o instr ho hinstr hqn
  refine ⟨?_, ?_, ⟨trPre, ref, trP, htr, hpreC, hpreP, hc0, hmem⟩, hquik⟩
  · rw [htr, countCancels_append, countCancels_append, hpreC, hc0]
    simp [countCancels]
  · rw [htr, countPlaces_append, countPlaces_append, hpreP, hp1]
    simp [countPlaces]

/-- C4: a modify on a stock-board segment (class code starting `TQ`),
or whose MOVE_ORDERS attempt the venue rejects, performs exactly one
cancel transaction, then the settle sleep, then exactly one new
placement carrying the same local id; the local id's bound venue order
id afterwards is the fresh id of the re-placement's reply, so it differs
from the old one whenever the venue assigns a new id. -/
theorem modify_cancel_replace (st : OMState) (ormId : Int) (newPrice : ℚ)
    (newQty : Option Int) (mT cT nT : Int) (mResp cResp nResp : QResp)
    (o : OrderRec) (instr : InstrRec) (oldQn : Int)
    (ho : lookup st.orders ormId = some o)
    (hinstr : lookup st.instruments o.instrumentId = some instr)
    (hqn : lookup st.ormToQuik ormId = some oldQn)
    (htrig : instr.board.toUpper.startsWith "TQ" = true ∨ moveOk mResp = false) :
    countCancels (modify_order st ormId newPrice newQty mT cT nT
      mResp cResp nResp).2 = 1 ∧
    countPlaces (modify_order st ormId newPrice newQty mT cT nT
      mResp cResp nResp).2 = 1 ∧
    (∃ trPre2 ref trP,
      (modify_order st ormId newPrice newQty mT cT nT mResp cResp nResp).2 =
        trPre2 ++ [TraceAct.regTrans cT ormId, TraceAct.dispatchCancel ref (some cT),
          TraceAct.settleSleep] ++ trP ∧
      countCancels trPre2 = 0 ∧ countPlaces trPre2 = 0 ∧ countCancels trP = 0 ∧
      (∃ odSent, TraceAct.dispatchPlace odSent ormId ∈ trP)) ∧
    (∀ qn2, nResp.orderNum = some qn2 → qn2 ≠ oldQn →
      lookup (modify_order st ormId newPrice newQty mT cT nT
        mResp cResp nResp).1.ormToQuik ormId = some qn2 ∧
      lookup (modify_order st ormId newPrice newQty mT cT nT
        mResp cResp nResp).1.ormToQuik ormId ≠ lookup st.ormToQuik ormId) := by
  have hmain : countCancels (modify_order st ormId newPrice newQty mT cT nT
      mResp cResp nResp).2 = 1 ∧
      countPlaces (modify_order st ormId newPrice newQty mT cT nT
        mResp cResp nResp).2 = 1 ∧
      (∃ trPre2 ref trP,
        (modify_order st ormId newPrice newQty mT cT nT mResp cResp nResp).2 =
          trPre2 ++ [TraceAct.regTrans cT ormId,
            TraceAct.dispatchCancel ref (some cT), TraceAct.settleSleep] ++ trP ∧
        countCancels trPre2 = 0 ∧ countPlaces trPre2 = 0 ∧ countCancels trP = 0 ∧
        (∃ odSent, TraceAct.dispatchPlace odSent ormId ∈ trP)) ∧
      (∀ qn2, nResp.orderNum = some qn2 →
        lookup (modify_order st ormId newPrice newQty mT cT nT
          mResp cResp nResp).1.ormToQuik ormId = some qn2) := by
    unfold modify_order
    dsimp only
    rw [hqn, ho]
    dsimp only
    rw [hinstr]
    dsimp only
    rw [if_neg (by simp)]
    split
    · -- MOVE_ORDERS path attempted: the venue must have rejected it
      rename_i hum
      have hmov : ¬ (moveOk mResp = true) := by
        rcases htrig with htq | hmf
        · exact absurd htq (by simpa using hum.2)
        · simp [hmf]
      rw [if_neg hmov]
      exact modify_conclusions_of_fallback _ _ ormId newPrice _ o.qty
        instr.board instr.ticker _ _ _ cT nT cResp nResp oldQn o instr
        (by simp [countCancels]) (by simp [countPlaces]) ho hinstr hqn
    · exact modify_conclusions_of_fallback _ _ ormId newPrice _ o.qty
        instr.board instr.ticker _ _ _ cT nT cResp nResp oldQn o instr
        (by simp [countCancels]) (by simp [countPlaces]) ho hinstr hqn
  refine ⟨hmain.1, hmain.2.1, hmain.2.2.1, ?_⟩
  intro qn2 hresp hne
  refine ⟨hmain.2.2.2 qn2 hresp, ?_⟩
  rw [hmain.2.2.2 qn2 hresp, hqn]
  simp [hne]

/-- C4 witness: modifying local order 5 (venue id 111) when the venue
rejects the MOVE_ORDERS attempt yields exactly one cancel and one
re-placement, and rebinds the local id to the fresh venue id 222. -/
theorem modify_cancel_replace_witness :
    countCancels (modify_order
      { emptyState with
          orders := [(5, freshOrder 1 Side.LONG 10 3)]
          instruments := [(1, ⟨"SPBFUT", "SiU5"⟩)]
          ormToQuik := [(5, 111)]
          quikToOrm := [(111, 5)] } 5 11 none 201 202 203
      { result := some 3, data := none, orderNum := none }
      { result := some 0, data := some true, orderNum := none }
      { result := some 0, data := none, orderNum := some 222 }).2 = 1 ∧
    countPlaces (modify_order
      { emptyState with
          orders := [(5, freshOrder 1 Side.LONG 10 3)]
          instruments := [(1, ⟨"SPBFUT", "SiU5"⟩)]
          ormToQuik := [(5, 111)]
          quikToOrm := [(111, 5)] } 5 11 none 201 202 203
      { result := some 3, data := none, orderNum := none }
      { result := some 0, data := some true, orderNum := none }
      { result := some 0, data := none, orderNum := some 222 }).2 = 1 ∧
    lookup (modify_order
      { emptyState with
          orders := [(5, freshOrder 1 Side.LONG 10 3)]
          instruments := [(1, ⟨"SPBFUT", "SiU5"⟩)]
          ormToQuik := [(5, 111)]
          quikToOrm := [(111, 5)] } 5 11 none 201 202 203
      { result := some 3, data := none, orderNum := none }
      { result := some 0, data := some true, orderNum := none }
      { result := some 0, data := none, orderNum := some 222 }).1.ormToQuik 5 =
      some 222 := by
  have h := modify_cancel_replace
    { emptyState with
        orders := [(5, freshOrder 1 Side.LONG 10 3)]
        instruments := [(1, ⟨"SPBFUT", "SiU5"⟩)]
        ormToQuik := [(5, 111)]
        quikToOrm := [(111, 5)] } 5 11 none 201 202 203
    { result := some 3, data := none, orderNum := none }
    { result := some 0, data := some true, orderNum := none }
    { result := some 0, data := none, orderNum := some 222 }
    (freshOrder 1 Side.LONG 10 3) ⟨"SPBFUT", "SiU5"⟩ 111
    rfl rfl rfl (Or.inr (by decide))
  exact ⟨h.1, h.2.1, (h.2.2.2 222 rfl (by decide)).1⟩

/-- C9 counterexample: in the `infra` bridge, a trade push IS routed
through the lossy bounded event queue — it lands in the queue when there
is room, and is dropped outright when the queue is full — contradicting
"order/trade/transaction-reply events are never routed through that
lossy queue". -/
theorem lossy_queue_routing_counterexample :
    infra_on_trade [] 1 = ([PushEvent.trade 1], true) ∧
    infra_on_trade (List.replicate QUEUE_MAXSIZE (PushEvent.quote 0)) 1 =
      (List.replicate QUEUE_MAXSIZE (PushEvent.quote 0), false) := by
  constructor
  · rfl
  · unfold infra_on_trade put_nowait
    rw [if_pos (by simp)]

/-- C9 amended: in the `quik_connector` core bridge, trade/order/
trans-reply pushes bypass the event queue entirely — they are handed
synchronously to the `OrderManager` ingestion handlers and leave the
queue untouched — while quote pushes go through the bounded queue with a
drop-newest-on-full policy; the `infra` bridge, however, routes trade
and trans-reply pushes through the same lossy bounded queue, appending
below capacity and dropping the new event when full (old events are
kept, so the queue length never exceeds the bound). -/
theorem push_event_routing (st : OMState) (q : List PushEvent) (e : QEvent)
    (p : Int) :
    ((core_on_trade st q e).2.1 = q ∧
      (core_on_order st q e).2.1 = q ∧
      (core_on_trans_reply st q e).2.1 = q) ∧
    ((core_on_trade st q e).1 = (on_trade_event st e).1 ∧
      (core_on_order st q e).1 = (on_order_event st e).1 ∧
      (core_on_trans_reply st q e).1 = (on_trans_reply_event st e).1) ∧
    (core_quote_push q p = put_nowait q (PushEvent.quote p) ∧
      infra_on_trade q p = put_nowait q (PushEvent.trade p) ∧
      infra_on_trans_reply q p = put_nowait q (PushEvent.transReply p)) ∧
    (q.length < QUEUE_MAXSIZE →
      put_nowait q (PushEvent.trade p) = (q ++ [PushEvent.trade p], true)) ∧
    (QUEUE_MAXSIZE ≤ q.length → put_nowait q (PushEvent.trade p) = (q, false)) ∧
    (put_nowait q (PushEvent.quote p)).1.length ≤ max q.length QUEUE_MAXSIZE := by
  refine ⟨⟨rfl, rfl, rfl⟩, ⟨rfl, rfl, rfl⟩, ⟨rfl, rfl, rfl⟩, ?_, ?_, ?_⟩
  · intro h
    unfold put_nowait
    rw [if_neg (by omega)]
  · intro h
    unfold put_nowait
    rw [if_pos h]
  · unfold put_nowait
    split
    · simp
    · simp only [List.length_append, List.length_cons, List.length_nil]
      omega

/-- C9 amended witness: with the queue at capacity, a core-bridge trade
push leaves the queue untouched while the infra-bridge put drops the new
trade. -/
theorem push_event_routing_witness :
    (core_on_trade emptyState (List.replicate QUEUE_MAXSIZE (PushEvent.quote 0))
      emptyQEvent).2.1 = List.replicate QUEUE_MAXSIZE (PushEvent.quote 0) ∧
    put_nowait (List.replicate QUEUE_MAXSIZE (PushEvent.quote 0))
      (PushEvent.trade 7) =
      (List.replicate QUEUE_MAXSIZE (PushEvent.quote 0), false) := by
  have h := push_event_routing emptyState
    (List.replicate QUEUE_MAXSIZE (PushEvent.quote 0)) emptyQEvent 7
  exact ⟨h.1.1, h.2.2.2.2.1 (by simp)⟩

end ArbTerm
